import Mathlib

/-
Verification of the ingestion / line-classification engine of the `json` CLI
(src/bin/json.js).  The engine is shallowly embedded: `JSON.parse` is modelled
by an executable JSON parser over a `JsonValue` type, the JavaScript string
primitives used by the source (`startsWith`, `endsWith`, `indexOf`,
`substring`, `trim`, `split`, `join`) are modelled over `List Char`, and the
functions `parseLine`, `processLine` and `jsonIn` are translated line by line
from the source.
-/

/-- A JSON value.  Numbers are kept exactly as `mantissa * 10 ^ exp10`
(normalised so that the mantissa has no trailing zeros and zero is `(0, 0)`),
which agrees with JavaScript number equality on all inputs whose mantissa fits
a double (all inputs appearing in this development).  Object fields are kept
in insertion order, as JavaScript does; equality of JSON objects itself does
not depend on that order, and every stated equality uses the insertion
order produced by the code. -/
inductive JsonValue where
  | null
  | bool (b : Bool)
  | num (mantissa : Int) (exp10 : Int)
  | str (s : String)
  | arr (items : List JsonValue)
  | obj (fields : List (String × JsonValue))

/-- JSON whitespace (RFC 8259: space, tab, line feed, carriage return). -/
def isJsonWs (c : Char) : Bool :=
  c == ' ' || c == '\t' || c == '\n' || c == '\r'

/-- Drop leading JSON whitespace. -/
def skipWs : List Char → List Char
  | [] => []
  | c :: rest => if isJsonWs c then skipWs rest else c :: rest

/-- Value of a hexadecimal digit. -/
def hexDigitVal (c : Char) : Option Nat :=
  if '0' ≤ c ∧ c ≤ '9' then some (c.toNat - '0'.toNat)
  else if 'a' ≤ c ∧ c ≤ 'f' then some (c.toNat - 'a'.toNat + 10)
  else if 'A' ≤ c ∧ c ≤ 'F' then some (c.toNat - 'A'.toNat + 10)
  else none

/-- Value of a decimal digit. -/
def digitVal (c : Char) : Option Nat :=
  if '0' ≤ c ∧ c ≤ '9' then some (c.toNat - '0'.toNat) else none

/-- Body of a JSON string literal, after the opening quote; returns the
decoded string and the remaining input.  `\uXXXX` escapes are decoded to the
corresponding scalar value (lone surrogates are rejected; JavaScript would
accept them, a divergence no claim touches). -/
def parseStrBody : List Char → List Char → Option (String × List Char)
  | [], _ => none
  | '"' :: rest, acc => some (String.mk acc.reverse, rest)
  | '\\' :: esc, acc =>
    match esc with
    | '"' :: rest => parseStrBody rest ('"' :: acc)
    | '\\' :: rest => parseStrBody rest ('\\' :: acc)
    | '/' :: rest => parseStrBody rest ('/' :: acc)
    | 'b' :: rest => parseStrBody rest ('\x08' :: acc)
    | 'f' :: rest => parseStrBody rest ('\x0c' :: acc)
    | 'n' :: rest => parseStrBody rest ('\n' :: acc)
    | 'r' :: rest => parseStrBody rest ('\r' :: acc)
    | 't' :: rest => parseStrBody rest ('\t' :: acc)
    | 'u' :: h1 :: h2 :: h3 :: h4 :: rest =>
      match hexDigitVal h1, hexDigitVal h2, hexDigitVal h3, hexDigitVal h4 with
      | some a, some b, some c, some d =>
        let n := ((a * 16 + b) * 16 + c) * 16 + d
        if n < 0xd800 ∨ (0xe000 ≤ n ∧ n < 0x110000) then
          parseStrBody rest (Char.ofNat n :: acc)
        else none
      | _, _, _, _ => none
    | _ => none
  | c :: rest, acc =>
    if c.toNat < 0x20 then none else parseStrBody rest (c :: acc)

/-- Take a maximal run of decimal digits. -/
def takeDigits : List Char → (List Nat × List Char)
  | [] => ([], [])
  | c :: rest =>
    match digitVal c with
    | some d =>
      let p := takeDigits rest
      (d :: p.1, p.2)
    | none => ([], c :: rest)

/-- Decimal digits to a natural number. -/
def natOfDigits (ds : List Nat) : Nat :=
  ds.foldl (fun a d => a * 10 + d) 0

/-- Integer part of a JSON number: `0`, or a nonzero digit followed by
digits (leading zeros are a syntax error, as for `JSON.parse`). -/
def parseIntDigits : List Char → Option (List Nat × List Char)
  | '0' :: rest =>
    match rest with
    | c :: _ =>
      match digitVal c with
      | some _ => none
      | none => some ([0], rest)
    | [] => some ([0], [])
  | c :: rest =>
    match digitVal c with
    | some d =>
      let p := takeDigits rest
      some (d :: p.1, p.2)
    | none => none
  | [] => none

/-- Optional fraction part; `.` must be followed by at least one digit. -/
def parseFrac : List Char → Option (List Nat × List Char)
  | '.' :: rest =>
    match takeDigits rest with
    | ([], _) => none
    | (ds, r) => some (ds, r)
  | cs => some ([], cs)

/-- Optional exponent part; returns the signed exponent. -/
def parseExp : List Char → Option (Int × List Char)
  | c :: rest =>
    if c = 'e' ∨ c = 'E' then
      let sr : Int × List Char :=
        match rest with
        | '+' :: r => (1, r)
        | '-' :: r => (-1, r)
        | r => (1, r)
      match takeDigits sr.2 with
      | ([], _) => none
      | (ds, r2) => some (sr.1 * Int.ofNat (natOfDigits ds), r2)
    else some (0, c :: rest)
  | [] => some (0, [])

/-- Strip trailing decimal zeros from a mantissa, shifting them into the
exponent; the fuel bounds the number of strips. -/
def stripZeros : Nat → Int → Int → Int × Int
  | 0, m, e => (m, e)
  | fuel + 1, m, e =>
    if m ≠ 0 ∧ m % 10 = 0 then stripZeros fuel (m / 10) (e + 1) else (m, e)

/-- Normalised JSON number value. -/
def mkNum (m : Int) (e : Int) : JsonValue :=
  if m = 0 then .num 0 0
  else
    let p := stripZeros m.natAbs m e
    .num p.1 p.2

/-- A JSON number token, per the RFC 8259 grammar. -/
def parseNum (cs : List Char) : Option (JsonValue × List Char) :=
  let sn : Bool × List Char :=
    match cs with
    | '-' :: rest => (true, rest)
    | _ => (false, cs)
  match parseIntDigits sn.2 with
  | none => none
  | some (ids, cs2) =>
    match parseFrac cs2 with
    | none => none
    | some (fds, cs3) =>
      match parseExp cs3 with
      | none => none
      | some (ex, cs4) =>
        let mAbs : Nat := natOfDigits (ids ++ fds)
        let m : Int := if sn.1 then - Int.ofNat mAbs else Int.ofNat mAbs
        some (mkNum m (ex - Int.ofNat fds.length), cs4)

/-- Association-list lookup, first match (JavaScript property read). -/
def lookupField : List (String × JsonValue) → String → Option JsonValue
  | [], _ => none
  | (k, v) :: rest, key => if k = key then some v else lookupField rest key

/-- Association-list update: replace in place when the key exists (keeping
its position, as JavaScript assignment does), else append. -/
def setField : List (String × JsonValue) → String → JsonValue → List (String × JsonValue)
  | [], key, v => [(key, v)]
  | (k, w) :: rest, key, v =>
    if k = key then (k, v) :: rest else (k, w) :: setField rest key v

mutual

/-- A JSON value, fuelled recursive-descent parser modelling `JSON.parse`.
Leading whitespace is skipped; the remaining input is returned. -/
def parseVal : Nat → List Char → Option (JsonValue × List Char)
  | 0, _ => none
  | fuel + 1, cs =>
    match skipWs cs with
    | [] => none
    | 'n' :: 'u' :: 'l' :: 'l' :: rest => some (.null, rest)
    | 't' :: 'r' :: 'u' :: 'e' :: rest => some (.bool true, rest)
    | 'f' :: 'a' :: 'l' :: 's' :: 'e' :: rest => some (.bool false, rest)
    | '"' :: rest =>
      match parseStrBody rest [] with
      | some (s, r) => some (.str s, r)
      | none => none
    | '[' :: rest =>
      match skipWs rest with
      | ']' :: r2 => some (.arr [], r2)
      | _ => parseArrItems fuel rest []
    | '\x7b' :: rest =>
      match skipWs rest with
      | '\x7d' :: r2 => some (.obj [], r2)
      | _ => parseObjItems fuel rest []
    | other => parseNum other

/-- Comma-separated array elements, after `[` or after a comma. -/
def parseArrItems : Nat → List Char → List JsonValue → Option (JsonValue × List Char)
  | 0, _, _ => none
  | fuel + 1, cs, acc =>
    match parseVal fuel cs with
    | none => none
    | some (v, r) =>
      match skipWs r with
      | ',' :: r2 => parseArrItems fuel r2 (acc ++ [v])
      | ']' :: r2 => some (.arr (acc ++ [v]), r2)
      | _ => none

/-- Comma-separated object members, after the opening brace or after a
comma.  A duplicate key keeps its first position with the later value, as
`JSON.parse` does. -/
def parseObjItems : Nat → List Char → List (String × JsonValue) → Option (JsonValue × List Char)
  | 0, _, _ => none
  | fuel + 1, cs, acc =>
    match skipWs cs with
    | '"' :: r =>
      match parseStrBody r [] with
      | none => none
      | some (k, r1) =>
        match skipWs r1 with
        | ':' :: r2 =>
          match parseVal fuel r2 with
          | none => none
          | some (v, r3) =>
            match skipWs r3 with
            | ',' :: r4 => parseObjItems fuel r4 (setField acc k v)
            | '\x7d' :: r4 => some (.obj (setField acc k v), r4)
            | _ => none
        | _ => none
    | _ => none

end

/-- Model of `JSON.parse`: parse one value, allow surrounding whitespace,
require the whole input to be consumed.  The fuel is generous: every
recursive call both consumes fuel and stands for at most two calls per input
character, so `2 * length + 16` never exhausts on any input. -/
def parseJson (s : String) : Option JsonValue :=
  match parseVal (s.data.length * 2 + 16) s.data with
  | some (v, rest) => if skipWs rest = [] then some v else none
  | none => none

/- JavaScript string primitives used by src/bin/json.js, modelled over the
character list of a `String`.  JavaScript strings are UTF-16; every string
these claims touch is ASCII, where the two models agree. -/

/-- Does the first character list begin with the second one? -/
def charsBeginWith : List Char → List Char → Bool
  | _, [] => true
  | [], _ :: _ => false
  | c :: rest, p :: ps => c == p && charsBeginWith rest ps

/-- JavaScript `s.startsWith(p)`. -/
def jsStartsWith (s p : String) : Bool :=
  charsBeginWith s.data p.data

/-- JavaScript `s.endsWith(p)`. -/
def jsEndsWith (s p : String) : Bool :=
  charsBeginWith s.data.reverse p.data.reverse

/-- Index of the first occurrence of a character, counting from `i`. -/
def jsIndexOfAux : List Char → Char → Nat → Int
  | [], _, _ => -1
  | c :: rest, t, i => if c == t then Int.ofNat i else jsIndexOfAux rest t (i + 1)

/-- JavaScript `s.indexOf(c)`: index of the first occurrence, `-1` if none. -/
def jsIndexOf (s : String) (c : Char) : Int :=
  jsIndexOfAux s.data c 0

/-- JavaScript `s.substring(i)` (from index `i` to the end). -/
def strFrom (s : String) (i : Nat) : String :=
  String.mk (s.data.drop i)

/-- JavaScript `s.substring(0, i)` (the first `i` characters). -/
def strTake (s : String) (i : Nat) : String :=
  String.mk (s.data.take i)

/-- Whitespace trimmed by JavaScript `String.prototype.trim` (the ASCII
part; the Unicode spaces it also trims never occur in these claims). -/
def isJsTrimWs (c : Char) : Bool :=
  c == ' ' || c == '\t' || c == '\n' || c == '\r' || c == '\x0b' || c == '\x0c'

/-- JavaScript `s.trim()`. -/
def jsTrim (s : String) : String :=
  String.mk ((s.data.dropWhile isJsTrimWs).reverse.dropWhile isJsTrimWs |>.reverse)

/-- Split a character list at every newline character. -/
def splitNlChars : List Char → List Char → List String
  | [], acc => [String.mk acc.reverse]
  | '\n' :: rest, acc => String.mk acc.reverse :: splitNlChars rest []
  | c :: rest, acc => splitNlChars rest (c :: acc)

/-- JavaScript `s.split("\n")`. -/
def splitNl (s : String) : List String :=
  splitNlChars s.data []

/-- JavaScript `arr.join("\n")`. -/
def joinNl : List String → String
  | [] => ""
  | [s] => s
  | s :: rest => s ++ "\n" ++ joinNl rest

/-- JavaScript truthiness of a JSON value: `null`, `false`, `0` and `""`
are falsy, everything else (including all objects and arrays) is truthy. -/
def jsTruthy : JsonValue → Bool
  | .null => false
  | .bool b => b
  | .num m _ => m != 0
  | .str s => s != ""
  | .arr _ => true
  | .obj _ => true

/-- JavaScript `!doc[key]`: true when the property is absent or falsy.  On a
non-object the property read yields `undefined`, hence true (within
`parseLine` this point is reached with `openIndex > 0`, where the parsed text
starts with a brace and is therefore always an object). -/
def jsPropFalsy (doc : JsonValue) (key : String) : Bool :=
  match doc with
  | .obj fields =>
    match lookupField fields key with
    | some v => ! jsTruthy v
    | none => true
  | _ => true

/-- JavaScript `doc[key] = v`: update the object in place (a property
assignment on a primitive is a silent no-op in sloppy mode). -/
def jsSetProp (doc : JsonValue) (key : String) (v : JsonValue) : JsonValue :=
  match doc with
  | .obj fields => .obj (setField fields key v)
  | other => other

/- The Line Classification Engine, translated from `parseLine` and the body
of `jsonIn` in src/bin/json.js. -/

/-- Result of classifying one line: the open-block state to carry to the next
line, the emitted Record when there is one, and whether `result.error` was
set (the source stores a message built from `err.stack`; only its presence is
observable to the engine, which counts it). -/
structure ParseLineResult where
  openLines : List String
  parsedLine : Option JsonValue
  error : Bool

/-- The `_lineError` annotation text.  The source interpolates `err.stack`,
an engine-dependent stack trace; it is modelled as a fixed marker, which no
claim inspects. -/
def lineErrMsg (_line : String) : String :=
  "Error thrown parsing line - SyntaxError"

/-- The Record built by the `catch` block of `parseLine`:
`{ _line: line, _lineError: ... }`. -/
def errRecord (line : String) : JsonValue :=
  .obj [("_line", .str line), ("_lineError", .str (lineErrMsg line))]

/-- The whole `catch` outcome of `parseLine`: error flagged, open block
cleared, degraded Record carrying the raw line. -/
def errResult (line : String) : ParseLineResult :=
  { openLines := [], parsedLine := some (errRecord line), error := true }

/-- The value `openIndex` of `parseLine`: zero when the line starts with a
square bracket, else the index of the first opening brace. -/
def openIdx (line : String) : Int :=
  if jsStartsWith line "[" then 0 else jsIndexOf line '\x7b'

/-- `parseLine(line, openLines)` from src/bin/json.js, line for line.  The
only operation inside the `try` that can throw is `JSON.parse`, so the
`catch` is modelled by matching the parse result.  Note that the close-branch
parses the `openLines` argument, which does not contain the closing brace
just pushed onto `result.openLines` — exactly as the source does. -/
def parseLine (line : String) (openLines : List String) : ParseLineResult :=
  let openIndex := openIdx line
  if openLines.length = 0 ∧
      ((jsIndexOf line '\x7b' ≥ 0 ∧ jsEndsWith line "\x7d") ∨
        (jsStartsWith line "[" ∧ jsEndsWith line "]")) then
    match parseJson (strFrom line openIndex.toNat) with
    | some doc =>
      let doc2 :=
        if 0 < openIndex ∧ jsPropFalsy doc "_line" then
          jsSetProp doc "_line" (.str (strTake line openIndex.toNat))
        else doc
      { openLines := openLines, parsedLine := some doc2, error := false }
    | none => errResult line
  else if line = "\x7b" then
    { openLines := [line], parsedLine := none, error := false }
  else if 0 < openLines.length then
    if line = "\x7d" then
      match parseJson (joinNl openLines) with
      | some v => { openLines := [], parsedLine := some v, error := false }
      | none => errResult line
    else
      { openLines := openLines ++ [line], parsedLine := none, error := false }
  else
    { openLines := openLines, parsedLine := some (.obj [("_line", .str line)]), error := false }

/-- State threaded through the line loop of `jsonIn`: the `lines` array of
emitted Records, the carried `openLines`, and the `nErrors` / `lineCount`
counters. -/
structure LineModeState where
  records : List JsonValue
  openLines : List String
  nErrors : Nat
  lineCount : Nat

/-- The `processLine` closure inside `jsonIn`. -/
def processLine (st : LineModeState) (line : String) : LineModeState :=
  let result := parseLine line st.openLines
  { records := st.records ++ (match result.parsedLine with
      | some v => [v]
      | none => []),
    openLines := result.openLines,
    nErrors := st.nErrors + (if result.error then 1 else 0),
    lineCount := st.lineCount + 1 }

/-- Run `processLine` over a list of lines. -/
def runLines : LineModeState → List String → LineModeState
  | st, [] => st
  | st, l :: rest => runLines (processLine st l) rest

/-- The initial loop state of `jsonIn`. -/
def initState : LineModeState :=
  { records := [], openLines := [], nErrors := 0, lineCount := 0 }

/-- The Line Classification Engine: the fallback loop of `jsonIn` applied to
an already split-and-trimmed line sequence. -/
def lineMode (lines : List String) : LineModeState :=
  runLines initState lines

/-- The stdin line preparation of `jsonIn`:
`textInput.trim().split("\n").map(l => l.trim()).filter(Boolean)`. -/
def splitLines (text : String) : List String :=
  ((splitNl (jsTrim text)).map jsTrim).filter (fun l => l ≠ "")

/-- Outcome of `jsonIn`: either the whole-document parse succeeded, or the
line-mode fallback ran.  The constructor records which path produced the
result. -/
inductive IngestResult where
  | document (v : JsonValue)
  | fallback (st : LineModeState)

/-- `jsonIn` on buffered text (the stdin path; the file path differs only in
how lines reach `processLine`): try `JSON.parse` on the whole input first,
and only on failure fall back to the line loop. -/
def jsonIn (text : String) : IngestResult :=
  match parseJson text with
  | some v => .document v
  | none => .fallback (lineMode (splitLines text))

/-- Keys of a JSON object, `[]` for any other value. -/
def objKeys : JsonValue → List String
  | .obj fields => fields.map Prod.fst
  | _ => []

/-- The string stored under `_line` of an emitted Record, when there is
one. -/
def lineStrField (r : Option JsonValue) : Option String :=
  match r with
  | some (.obj fields) =>
    match lookupField fields "_line" with
    | some (.str s) => some s
    | _ => none
  | _ => none

/-- Records contributed by one classification result. -/
def recOf (r : ParseLineResult) : List JsonValue :=
  match r.parsedLine with
  | some v => [v]
  | none => []

/-- Error-tally contribution of one classification result. -/
def errOf (r : ParseLineResult) : Nat :=
  if r.error then 1 else 0

/- Concrete sanity checks of the embedding, each closed by evaluation. -/

example : parseJson "1" = some (.num 1 0) := rfl
example : parseJson "\x7b\"k\": 1\x7d" = some (.obj [("k", .num 1 0)]) := rfl
example : parseJson "\x7b\n\"k\": 1" = none := rfl
example : parseJson "[1, 2]" = some (.arr [.num 1 0, .num 2 0]) := rfl
example : parseJson "\x7b\"a\": \x7d" = none := rfl
example : parseJson "1\n2" = none := rfl
example : parseJson "-1.50e1" = some (.num (-15) 0) := rfl
example : parseJson " \"a\\nb\" " = some (.str "a\nb") := rfl
example : parseJson "\x7b\"a\":1,\"a\":2\x7d" = some (.obj [("a", .num 2 0)]) := rfl

example : jsonIn "[1, 2]" = .document (.arr [.num 1 0, .num 2 0]) := rfl
example : splitLines " 1\n2 \n\n" = ["1", "2"] := rfl
example :
    parseLine "text\x7b\"a\":1\x7d" [] =
      { openLines := [],
        parsedLine := some (.obj [("a", .num 1 0), ("_line", .str "text")]),
        error := false } := rfl
example :
    lineMode ["\x7b", "\"k\": 1", "\x7d"] =
      { records := [errRecord "\x7d"], openLines := [], nErrors := 1, lineCount := 3 } := rfl
example :
    parseLine "\x7b\"a\": \x7d" [] = errResult "\x7b\"a\": \x7d" := rfl
example : (parseLine "\x7b" []).openLines = ["\x7b"] := rfl
example : (parseLine "\x7b" ["\x7b", "\"a\": 1"]).openLines = ["\x7b"] := rfl

/- Helper lemmas about the embedding. -/

theorem strFrom_zero (l : String) : strFrom l 0 = l := rfl

theorem jsStartsWith_brace_data (l : String) (h : jsStartsWith l "\x7b" = true) :
    ∃ t, l.data = '\x7b' :: t := by
  unfold jsStartsWith at h
  have hd : ("\x7b" : String).data = ['\x7b'] := rfl
  rw [hd] at h
  rcases he : l.data with _ | ⟨c, t⟩
  · rw [he] at h; simp [charsBeginWith] at h
  · rw [he] at h
    simp [charsBeginWith] at h
    exact ⟨t, by rw [h]⟩

theorem jsStartsWith_brace_indexOf (l : String) (h : jsStartsWith l "\x7b" = true) :
    jsIndexOf l '\x7b' = 0 := by
  obtain ⟨t, ht⟩ := jsStartsWith_brace_data l h
  unfold jsIndexOf
  rw [ht]
  simp [jsIndexOfAux]

theorem jsStartsWith_brace_not_bracket (l : String) (h : jsStartsWith l "\x7b" = true) :
    jsStartsWith l "[" = false := by
  obtain ⟨t, ht⟩ := jsStartsWith_brace_data l h
  unfold jsStartsWith
  have hd : ("[" : String).data = ['['] := rfl
  rw [ht, hd]
  simp [charsBeginWith]

theorem processLine_eq (st : LineModeState) (l : String) :
    processLine st l =
      { records := st.records ++ recOf (parseLine l st.openLines),
        openLines := (parseLine l st.openLines).openLines,
        nErrors := st.nErrors + errOf (parseLine l st.openLines),
        lineCount := st.lineCount + 1 } := rfl

theorem runLines_append (xs ys : List String) : ∀ st : LineModeState,
    runLines st (xs ++ ys) = runLines (runLines st xs) ys := by
  induction xs with
  | nil => intro st; rfl
  | cons l rest ih =>
    intro st
    show runLines (processLine st l) (rest ++ ys) = _
    rw [ih]
    rfl

theorem runLines_shift (ls : List String) : ∀ acc o n c,
    runLines ⟨acc, o, n, c⟩ ls =
      { records := acc ++ (runLines ⟨[], o, 0, 0⟩ ls).records,
        openLines := (runLines ⟨[], o, 0, 0⟩ ls).openLines,
        nErrors := n + (runLines ⟨[], o, 0, 0⟩ ls).nErrors,
        lineCount := c + (runLines ⟨[], o, 0, 0⟩ ls).lineCount } := by
  induction ls with
  | nil => intro acc o n c; simp [runLines]
  | cons l rest ih =>
    intro acc o n c
    show runLines (processLine ⟨acc, o, n, c⟩ l) rest =
      { records := acc ++ (runLines (processLine ⟨[], o, 0, 0⟩ l) rest).records,
        openLines := (runLines (processLine ⟨[], o, 0, 0⟩ l) rest).openLines,
        nErrors := n + (runLines (processLine ⟨[], o, 0, 0⟩ l) rest).nErrors,
        lineCount := c + (runLines (processLine ⟨[], o, 0, 0⟩ l) rest).lineCount }
    rw [processLine_eq, processLine_eq]
    rw [ih (acc ++ recOf (parseLine l o)) ((parseLine l o).openLines)
        (n + errOf (parseLine l o)) (c + 1)]
    rw [ih ([] ++ recOf (parseLine l o)) ((parseLine l o).openLines)
        (0 + errOf (parseLine l o)) (0 + 1)]
    simp [List.append_assoc, Nat.add_assoc]

theorem parseLine_openBrace (o : List String) :
    parseLine "\x7b" o =
      { openLines := ["\x7b"], parsedLine := none, error := false } := by
  have hD : ¬ ((jsIndexOf "\x7b" '\x7b' ≥ 0 ∧ jsEndsWith "\x7b" "\x7d" = true) ∨
      (jsStartsWith "\x7b" "[" = true ∧ jsEndsWith "\x7b" "]" = true)) := by decide
  simp only [parseLine]
  rw [if_neg (fun hc => hD hc.2)]
  simp

theorem parseLine_block_step (l : String) (o : List String) (ho : o ≠ []) (hl : l ≠ "\x7d") :
    (parseLine l o).parsedLine = none ∧ (parseLine l o).openLines ≠ [] ∧
      (parseLine l o).error = false := by
  by_cases hbrace : l = "\x7b"
  · subst hbrace
    rw [parseLine_openBrace]
    exact ⟨rfl, by simp, rfl⟩
  · have h0 : ¬ o.length = 0 := fun h => ho (List.length_eq_zero.mp h)
    simp only [parseLine]
    rw [if_neg (fun hc => h0 hc.1), if_neg hbrace, if_pos (List.length_pos.mpr ho), if_neg hl]
    exact ⟨rfl, by simp, rfl⟩

theorem runLines_block_silent (extra : List String) : ∀ st : LineModeState,
    st.openLines ≠ [] → "\x7d" ∉ extra → (runLines st extra).records = st.records := by
  induction extra with
  | nil => intro st _ _; rfl
  | cons l rest ih =>
    intro st ho hmem
    have hl : l ≠ "\x7d" := fun he => hmem (by rw [he]; exact List.mem_cons_self _ _)
    have hmem2 : "\x7d" ∉ rest := fun hm => hmem (List.mem_cons_of_mem l hm)
    obtain ⟨h1, h2, _⟩ := parseLine_block_step l st.openLines ho hl
    show (runLines (processLine st l) rest).records = st.records
    rw [processLine_eq]
    rw [ih _ h2 hmem2]
    simp [recOf, h1]

theorem parseLine_flat (l : String) (v : JsonValue)
    (hshape : (jsStartsWith l "\x7b" = true ∧ jsEndsWith l "\x7d" = true) ∨
      (jsStartsWith l "[" = true ∧ jsEndsWith l "]" = true))
    (hp : parseJson l = some v) :
    parseLine l [] = { openLines := [], parsedLine := some v, error := false } := by
  rcases hshape with ⟨h1, h2⟩ | ⟨h1, h2⟩
  · have hnb := jsStartsWith_brace_not_bracket l h1
    have hix := jsStartsWith_brace_indexOf l h1
    simp [parseLine, openIdx, hnb, hix, h2, hp, strFrom_zero]
  · simp [parseLine, openIdx, h1, h2, hp, strFrom_zero]

theorem parseLine_guard_fail (l : String)
    (hguard : (jsIndexOf l '\x7b' ≥ 0 ∧ jsEndsWith l "\x7d" = true) ∨
      (jsStartsWith l "[" = true ∧ jsEndsWith l "]" = true))
    (hfail : parseJson (strFrom l (openIdx l).toNat) = none) :
    parseLine l [] = errResult l := by
  simp only [parseLine]
  rw [if_pos ⟨rfl, hguard⟩, hfail]

theorem runLines_flat (lines : List String) : ∀ st : LineModeState, st.openLines = [] →
    (∀ l ∈ lines,
      ((jsStartsWith l "\x7b" = true ∧ jsEndsWith l "\x7d" = true) ∨
        (jsStartsWith l "[" = true ∧ jsEndsWith l "]" = true)) ∧
      ∃ v, parseJson l = some v) →
    runLines st lines =
      { records := st.records ++ lines.map (fun l => (parseJson l).getD .null),
        openLines := [],
        nErrors := st.nErrors,
        lineCount := st.lineCount + lines.length } := by
  induction lines with
  | nil =>
    intro st ho _
    cases st
    simp_all [runLines]
  | cons l rest ih =>
    intro st ho hall
    obtain ⟨hshape, v, hv⟩ := hall l (List.mem_cons_self l rest)
    have hstep : parseLine l st.openLines =
        { openLines := [], parsedLine := some v, error := false } := by
      rw [ho]; exact parseLine_flat l v hshape hv
    show runLines (processLine st l) rest = _
    rw [processLine_eq, hstep]
    rw [ih _ rfl (fun l2 hl2 => hall l2 (List.mem_cons_of_mem l hl2))]
    simp [recOf, errOf, hv]
    omega

/- The claims. -/

/-- Claim C1 (code bug): for the three-line sequence consisting of the brace
line, the line containing the key and value, and the closing brace line, the
engine does not emit the Record for the single JSON object.  The close branch
of `parseLine` pushes the closing line onto `result.openLines` but parses the
stale `openLines` argument, whose joined text lacks the closing brace; that
parse fails and the engine emits the degraded record `errRecord` for the
closing line instead.  The first conjunct evaluates the engine at the failing
input; the second conjunct shows the text the code actually parses is not
JSON; the third shows the intended joined text (with the closing line, as the
spec describes) does parse to the claimed object; the fourth states the
divergence. -/
theorem C1_pretty_printed_block_code_bug :
    lineMode ["\x7b", "\"k\": 1", "\x7d"] =
      { records := [errRecord "\x7d"], openLines := [], nErrors := 1, lineCount := 3 } ∧
    parseJson (joinNl ["\x7b", "\"k\": 1"]) = none ∧
    parseJson (joinNl ["\x7b", "\"k\": 1", "\x7d"]) = some (.obj [("k", .num 1 0)]) ∧
    (lineMode ["\x7b", "\"k\": 1", "\x7d"]).records ≠ [.obj [("k", .num 1 0)]] := by
  refine ⟨rfl, rfl, rfl, ?_⟩
  intro h
  have h2 : ([["_line", "_lineError"]] : List (List String)) = [["k"]] :=
    congrArg (List.map objKeys) h
  exact absurd h2 (by decide)

/-- Claim C2: when the whole input parses as a single JSON document, `jsonIn`
returns exactly that parse through the whole-document path, and the line-mode
fallback is never invoked (the `IngestResult.document` constructor is
produced only by the whole-document branch, which the definition of `jsonIn`
tries first and exactly once). -/
theorem C2_whole_document_first (text : String) (v : JsonValue)
    (h : parseJson text = some v) :
    jsonIn text = .document v := by
  unfold jsonIn
  rw [h]

theorem C2_witness :
    parseJson "[1, 2]" = some (.arr [.num 1 0, .num 2 0]) ∧
    jsonIn "[1, 2]" = .document (.arr [.num 1 0, .num 2 0]) :=
  ⟨rfl, C2_whole_document_first _ _ rfl⟩

/-- Claim C3 counterexample: the input of the two lines `1` and `2` is JSONL
whose lines are each valid JSON, it is processed by the line-mode fallback,
yet the emitted Records are the raw-text objects carrying `_line`, not the
parses of the lines: a scalar line matches neither container shape of the
guard in `parseLine`, so it falls to the plain-text branch. -/
theorem C3_counterexample :
    parseJson "1\n2" = none ∧
    jsonIn "1\n2" = .fallback (lineMode ["1", "2"]) ∧
    parseJson "1" = some (.num 1 0) ∧
    parseJson "2" = some (.num 2 0) ∧
    (lineMode ["1", "2"]).records =
      [.obj [("_line", .str "1")], .obj [("_line", .str "2")]] ∧
    (lineMode ["1", "2"]).records ≠ [.num 1 0, .num 2 0] := by
  refine ⟨rfl, rfl, rfl, rfl, rfl, ?_⟩
  intro h
  have h2 : ([["_line"], ["_line"]] : List (List String)) = [[], []] :=
    congrArg (List.map objKeys) h
  exact absurd h2 (by decide)

/-- Claim C3 as amended: for line-mode input whose lines each parse as JSON
and are container-shaped (starting with the opening brace and ending with the
closing brace, or starting with `[` and ending with `]`), the Record sequence
has the same length and order as the lines, and each Record equals the parse
of its source line. -/
theorem C3_amended (lines : List String)
    (h : ∀ l ∈ lines,
      ((jsStartsWith l "\x7b" = true ∧ jsEndsWith l "\x7d" = true) ∨
        (jsStartsWith l "[" = true ∧ jsEndsWith l "]" = true)) ∧
      ∃ v, parseJson l = some v) :
    (lineMode lines).records = lines.map (fun l => (parseJson l).getD .null) ∧
    (lineMode lines).records.length = lines.length := by
  unfold lineMode
  rw [runLines_flat lines initState rfl h]
  exact ⟨by simp [initState], by simp [initState]⟩

theorem C3_witness :
    (lineMode ["\x7b\"a\":1\x7d", "[2]"]).records =
      ["\x7b\"a\":1\x7d", "[2]"].map (fun l => (parseJson l).getD .null) ∧
    (lineMode ["\x7b\"a\":1\x7d", "[2]"]).records.length = 2 :=
  C3_amended ["\x7b\"a\":1\x7d", "[2]"] (by
    intro l hl
    simp only [List.mem_cons, List.not_mem_nil, or_false] at hl
    rcases hl with rfl | rfl
    · exact ⟨Or.inl ⟨by decide, by decide⟩, _, rfl⟩
    · exact ⟨Or.inr ⟨by decide, by decide⟩, _, rfl⟩)

/-- Claim C4: for the line made of the text `text` followed by the
single-line JSON object with field `a`, the emitted Record is the parsed
object with the synthetic `_line` field holding the prefix text (the field is
appended, and equality of JSON objects does not depend on field order). -/
theorem C4_single_line_with_text_head :
    parseLine "text\x7b\"a\":1\x7d" [] =
      { openLines := [],
        parsedLine := some (.obj [("a", .num 1 0), ("_line", .str "text")]),
        error := false } := rfl

/-- Claim C10: `parseLine` is total by construction (it is a Lean function
into `ParseLineResult`; the only throwing operation in its `try`, the JSON
parse, is modelled by `Option`, and every `none` outcome flows into the
translated `catch`).  Whenever the internal parse error path is taken
(`result.error` set), the returned open-block state is empty and the returned
Record carries the current raw line under `_line`. -/
theorem C10_parseLine_total_and_error_safe (line : String) (o : List String)
    (h : (parseLine line o).error = true) :
    (parseLine line o).openLines = [] ∧
      (parseLine line o).parsedLine = some (errRecord line) := by
  unfold parseLine at h ⊢
  by_cases hg : o.length = 0 ∧
      ((jsIndexOf line '\x7b' ≥ 0 ∧ jsEndsWith line "\x7d" = true) ∨
        (jsStartsWith line "[" = true ∧ jsEndsWith line "]" = true))
  · rw [if_pos hg] at h ⊢
    rcases hp : parseJson (strFrom line (openIdx line).toNat) with _ | doc
    · exact ⟨rfl, rfl⟩
    · rw [hp] at h
      simp at h
  · rw [if_neg hg] at h ⊢
    by_cases hb : line = "\x7b"
    · rw [if_pos hb] at h
      simp at h
    · rw [if_neg hb] at h ⊢
      by_cases hlen : 0 < o.length
      · rw [if_pos hlen] at h ⊢
        by_cases hc : line = "\x7d"
        · rw [if_pos hc] at h ⊢
          rcases hp : parseJson (joinNl o) with _ | v
          · exact ⟨rfl, rfl⟩
          · rw [hp] at h
            simp at h
        · rw [if_neg hc] at h
          simp at h
      · rw [if_neg hlen] at h
        simp at h

theorem C10_witness :
    (parseLine "\x7b\"a\": \x7d" []).error = true ∧
    ((parseLine "\x7b\"a\": \x7d" []).openLines = [] ∧
      (parseLine "\x7b\"a\": \x7d" []).parsedLine =
        some (errRecord "\x7b\"a\": \x7d")) :=
  ⟨rfl, C10_parseLine_total_and_error_safe "\x7b\"a\": \x7d" [] rfl⟩

/-- Claim C5 counterexample: for the line with text `text` followed by the
JSON object whose `_line` field is the empty string, the `_line` of the
payload is not preserved: the JavaScript check `!doc._line` sees the falsy
empty string and overwrites it with the prefix text. -/
theorem C5_counterexample :
    parseJson "\x7b\"a\":1,\"_line\":\"\"\x7d" =
      some (.obj [("a", .num 1 0), ("_line", .str "")]) ∧
    (parseLine "text\x7b\"a\":1,\"_line\":\"\"\x7d" []).parsedLine =
      some (.obj [("a", .num 1 0), ("_line", .str "text")]) ∧
    lineStrField (parseLine "text\x7b\"a\":1,\"_line\":\"\"\x7d" []).parsedLine =
      some "text" ∧
    (some "text" : Option String) ≠ some "" :=
  ⟨rfl, rfl, rfl, by decide⟩

/-- Claim C5 as amended: for a line with a non-JSON head whose JSON payload
defines `_line` with a truthy value (not `null`, `false`, `0` or the empty
string), the emitted Record is the payload unchanged — in particular its
`_line` value is preserved.  When the `_line` of the payload is falsy it is
overwritten by the head text, as the counterexample shows. -/
theorem C5_amended (line : String) (i : Nat) (fields : List (String × JsonValue))
    (v : JsonValue)
    (hnb : jsStartsWith line "[" = false)
    (hidx : jsIndexOf line '\x7b' = Int.ofNat i)
    (hpos : 0 < i)
    (hend : jsEndsWith line "\x7d" = true)
    (hp : parseJson (strFrom line i) = some (.obj fields))
    (hl : lookupField fields "_line" = some v)
    (ht : jsTruthy v = true) :
    parseLine line [] =
      { openLines := [], parsedLine := some (.obj fields), error := false } := by
  have hge : jsIndexOf line '\x7b' ≥ 0 := by
    rw [hidx]; exact Int.ofNat_nonneg i
  have hoi : openIdx line = Int.ofNat i := by
    simp [openIdx, hnb]
    exact hidx
  have hpf : jsPropFalsy (.obj fields) "_line" = false := by
    simp [jsPropFalsy, hl, ht]
  simp [parseLine, hoi, hge, hend, hp, hpf, hpos]

theorem C5_witness :
    parseLine "text\x7b\"a\":1,\"_line\":\"x\"\x7d" [] =
      { openLines := [],
        parsedLine := some (.obj [("a", .num 1 0), ("_line", .str "x")]),
        error := false } :=
  C5_amended "text\x7b\"a\":1,\"_line\":\"x\"\x7d" 4
    [("a", .num 1 0), ("_line", .str "x")] (.str "x")
    rfl rfl (by decide) rfl rfl rfl rfl

/-- Claim C6 counterexample: the degraded Record for a malformed
JSON-looking line does not contain only the raw line text: besides `_line`
holding the raw text it carries the `_lineError` annotation field. -/
theorem C6_counterexample :
    (parseLine "\x7b\"a\": \x7d" []).parsedLine = some (errRecord "\x7b\"a\": \x7d") ∧
    Option.map objKeys (parseLine "\x7b\"a\": \x7d" []).parsedLine =
      some ["_line", "_lineError"] ∧
    (some ["_line", "_lineError"] : Option (List String)) ≠ some ["_line"] :=
  ⟨rfl, rfl, by decide⟩

/-- Claim C6 as amended: a malformed JSON-looking line (container shape,
parse failure) with no open block yields exactly one Record carrying the raw
line under `_line` together with the `_lineError` marker, the error tally
grows by exactly one, and the remaining lines are processed exactly as from a
fresh engine state (no poisoning). -/
theorem C6_amended (bad : String) (rest : List String)
    (hguard : (jsIndexOf bad '\x7b' ≥ 0 ∧ jsEndsWith bad "\x7d" = true) ∨
      (jsStartsWith bad "[" = true ∧ jsEndsWith bad "]" = true))
    (hfail : parseJson (strFrom bad (openIdx bad).toNat) = none) :
    (lineMode (bad :: rest)).records = errRecord bad :: (lineMode rest).records ∧
    (lineMode (bad :: rest)).nErrors = 1 + (lineMode rest).nErrors := by
  have hstep : parseLine bad initState.openLines = errResult bad :=
    parseLine_guard_fail bad hguard hfail
  have hpl : processLine initState bad =
      { records := [errRecord bad], openLines := [], nErrors := 1, lineCount := 1 } := by
    rw [processLine_eq, hstep]
    rfl
  unfold lineMode
  show (runLines (processLine initState bad) rest).records = _ ∧
    (runLines (processLine initState bad) rest).nErrors = _
  rw [hpl, runLines_shift rest [errRecord bad] [] 1 1]
  exact ⟨rfl, rfl⟩

theorem C6_witness :
    (lineMode ["\x7b\"a\": \x7d", "\x7b\"b\":2\x7d"]).records =
      errRecord "\x7b\"a\": \x7d" :: (lineMode ["\x7b\"b\":2\x7d"]).records ∧
    (lineMode ["\x7b\"a\": \x7d", "\x7b\"b\":2\x7d"]).nErrors =
      1 + (lineMode ["\x7b\"b\":2\x7d"]).nErrors :=
  C6_amended "\x7b\"a\": \x7d" ["\x7b\"b\":2\x7d"]
    (Or.inl ⟨by decide, by decide⟩) rfl

/-- Claim C7 counterexample: when a block fails to close, the raw-text Record
captures only the closing line, not the joined accumulated block text (with
or without the closing line). -/
theorem C7_counterexample :
    parseLine "\x7d" ["\x7b", "\"a\": oops"] = errResult "\x7d" ∧
    lineStrField (parseLine "\x7d" ["\x7b", "\"a\": oops"]).parsedLine = some "\x7d" ∧
    joinNl ["\x7b", "\"a\": oops", "\x7d"] = "\x7b\n\"a\": oops\n\x7d" ∧
    (some "\x7d" : Option String) ≠ some "\x7b\n\"a\": oops\n\x7d" ∧
    (some "\x7d" : Option String) ≠ some "\x7b\n\"a\": oops" :=
  ⟨rfl, rfl, rfl, by decide, by decide⟩

/-- Claim C7 as amended: when the closing line arrives on an open block and
the text the code parses (the accumulated lines joined with newlines) fails
to parse, the engine emits exactly one raw-text Record whose captured text is
the closing line itself (with the `_lineError` marker), and clears the
open-block state. -/
theorem C7_amended (o : List String) (h : o ≠ [])
    (hfail : parseJson (joinNl o) = none) :
    parseLine "\x7d" o = errResult "\x7d" := by
  have h0 : ¬ o.length = 0 := fun h2 => h (List.length_eq_zero.mp h2)
  simp only [parseLine]
  rw [if_neg (fun hc => h0 hc.1), if_neg (by decide : ¬ ("\x7d" : String) = "\x7b"),
    if_pos (List.length_pos.mpr h), if_pos trivial, hfail]

theorem C7_witness :
    parseLine "\x7d" ["\x7b"] = errResult "\x7d" :=
  C7_amended ["\x7b"] (by decide) rfl

/-- Claim C8 counterexample: a line that is exactly the opening brace,
arriving while a block is open, is not appended; the accumulated block is
discarded and a fresh OpenBlock is started (the branch comparing the line to
the lone opening brace is tested before the open-block branch). -/
theorem C8_counterexample :
    (parseLine "\x7b" ["\x7b", "\"a\": 1"]).openLines = ["\x7b"] ∧
    (["\x7b"] : List String) ≠ ["\x7b", "\"a\": 1", "\x7b"] :=
  ⟨rfl, by decide⟩

/-- Claim C8 as amended: while a block is open, every line other than the
exact opening brace is appended verbatim (with close attempted only on the
exact closing brace, after which the state is cleared); a line that is
exactly the opening brace discards the accumulated block and starts a fresh
OpenBlock.  Either way at most one OpenBlock is ever live. -/
theorem C8_amended (o : List String) (line : String) (h : o ≠ []) :
    (line = "\x7b" →
      (parseLine line o).openLines = ["\x7b"] ∧ (parseLine line o).parsedLine = none) ∧
    (line ≠ "\x7b" → line ≠ "\x7d" →
      (parseLine line o).openLines = o ++ [line] ∧ (parseLine line o).parsedLine = none) ∧
    (line = "\x7d" → (parseLine line o).openLines = []) := by
  have h0 : ¬ o.length = 0 := fun h2 => h (List.length_eq_zero.mp h2)
  refine ⟨?_, ?_, ?_⟩
  · intro hb
    subst hb
    rw [parseLine_openBrace]
    exact ⟨rfl, rfl⟩
  · intro hb hc
    simp only [parseLine]
    rw [if_neg (fun hcond => h0 hcond.1), if_neg hb, if_pos (List.length_pos.mpr h),
      if_neg hc]
    exact ⟨rfl, rfl⟩
  · intro hc
    subst hc
    simp only [parseLine]
    rw [if_neg (fun hcond => h0 hcond.1), if_neg (by decide : ¬ ("\x7d" : String) = "\x7b"),
      if_pos (List.length_pos.mpr h), if_pos trivial]
    rcases parseJson (joinNl o) with _ | v
    · rfl
    · rfl

theorem C8_witness :
    (parseLine "\"x\": 1" ["\x7b"]).openLines = ["\x7b", "\"x\": 1"] ∧
    (parseLine "\"x\": 1" ["\x7b"]).parsedLine = none :=
  (C8_amended ["\x7b"] "\"x\": 1" (by decide)).2.1 (by decide) (by decide)

/-- Claim C9: when the input ends while a block is open (an opening-brace
line followed by any lines none of which is the exact closing brace),
ingestion completes (the engine is a total function), the Records are exactly
those finalized before the dangling block in their original order, and the
dangling block itself emits no Record. -/
theorem C9_dangling_open_block (lines extra : List String) (h : "\x7d" ∉ extra) :
    (lineMode (lines ++ "\x7b" :: extra)).records = (lineMode lines).records := by
  unfold lineMode
  rw [runLines_append]
  have hb : processLine (runLines initState lines) "\x7b" =
      { records := (runLines initState lines).records,
        openLines := ["\x7b"],
        nErrors := (runLines initState lines).nErrors,
        lineCount := (runLines initState lines).lineCount + 1 } := by
    rw [processLine_eq, parseLine_openBrace]
    simp [recOf, errOf]
  calc (runLines (runLines initState lines) ("\x7b" :: extra)).records
      = (runLines (processLine (runLines initState lines) "\x7b") extra).records := rfl
    _ = (processLine (runLines initState lines) "\x7b").records :=
        runLines_block_silent extra _ (by rw [hb]; simp) h
    _ = (runLines initState lines).records := by rw [hb]

theorem C9_witness :
    (lineMode (["\x7b\"a\":1\x7d"] ++ "\x7b" :: ["\"x\": 1"])).records =
      (lineMode ["\x7b\"a\":1\x7d"]).records :=
  C9_dangling_open_block ["\x7b\"a\":1\x7d"] ["\"x\": 1"] (by decide)
